import Mathlib

/-!
# Verification of the sports-data client core

Shallow embedding of the repository's sports-data abstraction layer:
the base response mapper (`src/server/services/sports/base/mapper.py`),
the read-through cache (`src/server/services/cache.py`), the base HTTP
client error translation (`src/server/services/sports/base/client.py`),
the basketball client (`src/server/services/sports/basketball/client.py`),
the endpoint resolver (`src/server/services/sports/base/endpoints.py`)
and the soccer mapper's derived fields
(`src/server/services/sports/soccer/mapper.py`).

Modelling conventions:
* JSON values are the inductive `JsonValue`; Python numbers are modelled
  as integers (the fields the claims touch hold ints or strings; float
  payloads are out of scope).
* Python `dict`s are association lists with unique keys maintained by
  `dictSet`, which updates in place (preserving insertion position) or
  appends, exactly like CPython's insertion-ordered dicts.
* Python exceptions become the `PyExc` inductive; a function that can
  raise returns `Except PyExc _`.
* Python floats are modelled as exact fractions of integers; `round`
  is round-half-to-even applied to the exact value (the binary
  representation error of IEEE doubles is not modelled).
* Python's `str.isdigit` / `str.strip` are modelled by ASCII
  `Char.isDigit` / `pyStrip`; the extra Unicode digit and whitespace
  classes CPython recognizes are outside the YYYYMMDD / team-name data
  these functions receive.
-/

inductive JsonValue where
  | null : JsonValue
  | bool : Bool → JsonValue
  | num : Int → JsonValue
  | str : String → JsonValue
  | arr : List JsonValue → JsonValue
  | obj : List (String × JsonValue) → JsonValue

abbrev PyDict := List (String × JsonValue)

/-- `APIErrorCode` (src/server/errors.py, lines 6-13). -/
inductive APIErrorCode where
  | TIMEOUT : APIErrorCode
  | NOT_FOUND : APIErrorCode
  | SERVER_ERROR : APIErrorCode
  | CONNECTION_ERROR : APIErrorCode
  | VALIDATION_ERROR : APIErrorCode
  | UNKNOWN : APIErrorCode
  deriving DecidableEq

/-- `APIError` (src/server/errors.py, lines 26-45): machine-readable code
plus a technical detail string. -/
structure APIError where
  code : APIErrorCode
  detail : String
  deriving DecidableEq

/-- Python exceptions the embedded code can raise. -/
inductive PyExc where
  | valueError (msg : String) : PyExc
  | typeError : PyExc
  | attributeError : PyExc
  | apiExc (e : APIError) : PyExc
  deriving DecidableEq

/-- `d.get(k)` / `d[k]` lookup on a Python dict (first — and only —
matching key, since `dictSet` keeps keys unique). -/
def dictGet (d : PyDict) (k : String) : Option JsonValue :=
  match d with
  | [] => none
  | (k', v) :: rest => if k' = k then some v else dictGet rest k

/-- `d[k] = v` on a Python dict: update in place keeping the key's
insertion position, append when the key is new. -/
def dictSet (d : PyDict) (k : String) (v : JsonValue) : PyDict :=
  match d with
  | [] => [(k, v)]
  | (k', v') :: rest => if k' = k then (k, v) :: rest else (k', v') :: dictSet rest k v

/-- Lookup in a field map (a Python dict of strings). -/
def fmLookup (fm : List (String × String)) (k : String) : Option String :=
  match fm with
  | [] => none
  | (k', v) :: rest => if k' = k then some v else fmLookup rest k

/-- Keys of a dict. -/
def dictKeys (d : PyDict) : List String := d.map Prod.fst

/-- Targets of the field-map entries whose upstream field is present in
`data` — exactly the keys the first mapping pass writes. -/
def presentTargets (fm : List (String × String)) (data : PyDict) : List String :=
  fm.filterMap (fun p => if (dictGet data p.1).isSome then some p.2 else none)

/-! ## `BaseResponseMapper._apply_field_mapping`
(src/server/services/sports/base/mapper.py, lines 43-71)

```python
if not field_map:
    return data
mapped = {}
for api_field, internal_field in field_map.items():
    if api_field in data:
        mapped[internal_field] = data[api_field]
for key, value in data.items():
    if key not in field_map and key not in mapped:
        mapped[key] = value
return mapped
```
-/

/-- First pass: copy mapped fields that are present. -/
def mapPass1 (fm : List (String × String)) (data : PyDict) (m : PyDict) : PyDict :=
  match fm with
  | [] => m
  | (apiField, internalField) :: rest =>
    match dictGet data apiField with
    | some v => mapPass1 rest data (dictSet m internalField v)
    | none => mapPass1 rest data m

/-- Second pass: keep unmapped fields that do not collide with an
already-written key. -/
def mapPass2 (data : PyDict) (fm : List (String × String)) (m : PyDict) : PyDict :=
  match data with
  | [] => m
  | (k, v) :: rest =>
    if (fmLookup fm k).isSome then mapPass2 rest fm m
    else if (dictGet m k).isSome then mapPass2 rest fm m
    else mapPass2 rest fm (dictSet m k v)

/-- `BaseResponseMapper._apply_field_mapping` on a dict argument. -/
def applyFieldMapping (fm : List (String × String)) (data : PyDict) : PyDict :=
  if fm = [] then data
  else mapPass2 data fm (mapPass1 fm data [])

/-- Boolean prefix test on character lists. -/
def charsIsPrefixOf : List Char → List Char → Bool
  | [], _ => true
  | _ :: _, [] => false
  | a :: as, b :: bs => a = b && charsIsPrefixOf as bs

/-- Boolean substring test on character lists (Python's `a in s` on strings). -/
def charsIsInfixOf (xs ys : List Char) : Bool :=
  match ys with
  | [] => xs.isEmpty
  | _ :: tl => charsIsPrefixOf xs ys || charsIsInfixOf xs tl

/-- `_apply_field_mapping` on an arbitrary JSON value, tracking the
exception CPython raises when the item is not a dict and the field map
is non-empty:
* on `None`/bool/int (not iterable), `api_field in data` raises `TypeError`;
* on a string, `api_field in data` is a substring test; a hit leads to
  `data[api_field]` (string indexed by a string key, `TypeError`),
  otherwise `data.items()` raises `AttributeError`;
* on a list, `api_field in data` is membership; a hit leads to
  `data[api_field]` (`TypeError`), otherwise `data.items()` raises
  `AttributeError`. -/
def applyFieldMappingE (fm : List (String × String)) (v : JsonValue) :
    Except PyExc JsonValue :=
  if fm = [] then .ok v
  else match v with
    | .obj d => .ok (.obj (applyFieldMapping fm d))
    | .str s =>
      if fm.any (fun p => charsIsInfixOf p.1.data s.data) then .error .typeError
      else .error .attributeError
    | .arr l =>
      if fm.any (fun p => l.any (fun e =>
          match e with
          | .str t => t = p.1
          | _ => false)) then .error .typeError
      else .error .attributeError
    | _ => .error .typeError

/-! ## `BaseResponseMapper.map_games_list`
(src/server/services/sports/base/mapper.py, lines 73-108)

```python
if isinstance(api_response, list):
    return [self._apply_field_mapping(game, field_map) for game in api_response]
if isinstance(api_response, dict):
    if "Data" in api_response and isinstance(api_response["Data"], dict):
        games_list = api_response["Data"].get("list", [])
        if isinstance(games_list, list):
            return [self._apply_field_mapping(game, field_map) for game in games_list]
    for key in ["games", "data", "results", "items", "list"]:
        if key in api_response and isinstance(api_response[key], list):
            return [self._apply_field_mapping(game, field_map) for game in api_response[key]]
    return []
return []
```
-/

/-- The list comprehension `[self._apply_field_mapping(game, field_map)
for game in lst]`: left-to-right, first raise propagates. -/
def mapListE (f : JsonValue → Except PyExc JsonValue) :
    List JsonValue → Except PyExc (List JsonValue)
  | [] => .ok []
  | x :: xs =>
    match f x with
    | .error e => .error e
    | .ok y =>
      match mapListE f xs with
      | .error e => .error e
      | .ok ys => .ok (y :: ys)

/-- The `for key in ["games", "data", "results", "items", "list"]` loop:
first key whose value is a list wins. -/
def legacyKeyList (d : PyDict) (keys : List String) : Option (List JsonValue) :=
  match keys with
  | [] => none
  | k :: rest =>
    match dictGet d k with
    | some (.arr l) => some l
    | _ => legacyKeyList d rest

/-- The `legacy` fallback of `map_games_list`: the common-key loop, or
`[]` with a warning when nothing matches. -/
def legacyBranch (fm : List (String × String)) (d : PyDict) :
    Except PyExc (List JsonValue) :=
  match legacyKeyList d ["games", "data", "results", "items", "list"] with
  | some l => mapListE (applyFieldMappingE fm) l
  | none => .ok []

/-- `BaseResponseMapper.map_games_list`, parameterized by the concrete
mapper's game field map. -/
def mapGamesList (fm : List (String × String)) (apiResponse : JsonValue) :
    Except PyExc (List JsonValue) :=
  match apiResponse with
  | .arr l => mapListE (applyFieldMappingE fm) l
  | .obj d =>
    match dictGet d "Data" with
    | some (.obj dd) =>
      match (dictGet dd "list").getD (.arr []) with
      | .arr l => mapListE (applyFieldMappingE fm) l
      | _ => legacyBranch fm d
    | _ => legacyBranch fm d
  | _ => .ok []

/-- `SoccerMapper.get_game_field_map`
(src/server/services/sports/soccer/mapper.py, lines 41-57). -/
def soccerGameFieldMap : List (String × String) :=
  [("GAME_ID", "game_id"),
   ("LEAGUE_NAME", "league_name"),
   ("MATCH_DATE", "match_date"),
   ("MATCH_TIME", "match_time"),
   ("HOME_TEAM_ID", "home_team_id"),
   ("AWAY_TEAM_ID", "away_team_id"),
   ("HOME_TEAM_NAME", "home_team_name"),
   ("AWAY_TEAM_NAME", "away_team_name"),
   ("HOME_SCORE", "home_score"),
   ("AWAY_SCORE", "away_score"),
   ("STATE", "state"),
   ("ARENA_NAME", "arena_name"),
   ("COMPE", "compe")]

/-- `BasketballMapper.get_game_field_map`
(src/server/services/sports/basketball/mapper.py, lines 41-58). -/
def basketballGameFieldMap : List (String × String) :=
  [("GAME_ID", "game_id"),
   ("LEAGUE_ID", "league_id"),
   ("LEAGUE_NAME", "league_name"),
   ("MATCH_DATE", "match_date"),
   ("MATCH_TIME", "match_time"),
   ("HOME_TEAM_ID", "home_team_id"),
   ("AWAY_TEAM_ID", "away_team_id"),
   ("HOME_TEAM_NAME", "home_team_name"),
   ("AWAY_TEAM_NAME", "away_team_name"),
   ("HOME_SCORE", "home_score"),
   ("AWAY_SCORE", "away_score"),
   ("STATE", "state"),
   ("ARENA_NAME", "arena_name"),
   ("COMPE", "compe")]

/-- Does the embedded call raise (propagate a Python exception)? -/
def pyRaises {α : Type} (e : Except PyExc α) : Bool :=
  match e with
  | .error _ => true
  | .ok _ => false

/-- Tests whether the `Data`-as-dict branch of `map_games_list` fires
for a dict response. -/
def dataDictBranchHits (d : PyDict) : Bool :=
  match dictGet d "Data" with
  | some (.obj dd) =>
    match (dictGet dd "list").getD (.arr []) with
    | .arr _ => true
    | _ => false
  | _ => false

/-! ## Read-through cache (src/server/services/cache.py)

The underlying `cachetools.TTLCache` is modelled as a plain key-value
store: the claims under verification only look at the cache immediately
after a `cache_games` call, so no time passes, and `TTLCache.__setitem__`
with `maxsize ≥ 10` (config lower bound) never evicts the entry it just
inserted. -/

abbrev CacheState := List (String × List PyDict)

/-- `_make_key` (cache.py, lines 25-35). -/
def makeKey (date sport : String) : String := date ++ "_" ++ sport

/-- Store under a key: overwrite in place or append (dict semantics of
the underlying store, restricted to the written key). -/
def cacheSet (c : CacheState) (k : String) (v : List PyDict) : CacheState :=
  match c with
  | [] => [(k, v)]
  | (k', v') :: rest => if k' = k then (k, v) :: rest else (k', v') :: cacheSet rest k v

/-- Point lookup in the store. -/
def cacheLookup (c : CacheState) (k : String) : Option (List PyDict) :=
  match c with
  | [] => none
  | (k', v) :: rest => if k' = k then some v else cacheLookup rest k

/-- Python's `str.strip()` (ASCII whitespace model, see header). -/
def pyStrip (s : String) : String :=
  ⟨((s.data.dropWhile Char.isWhitespace).reverse.dropWhile Char.isWhitespace).reverse⟩

/-- Python truthiness of a JSON value (`not value`). -/
def pyTruthy : JsonValue → Bool
  | .null => false
  | .bool b => b
  | .num n => n != 0
  | .str s => s != ""
  | .arr l => !l.isEmpty
  | .obj d => !d.isEmpty

/-- `_is_valid_game` (cache.py, lines 38-51): every required field is
present, truthy, and — when a string — non-empty after strip.

```python
for field in REQUIRED_GAME_FIELDS:
    value = game.get(field)
    if not value or (isinstance(value, str) and not value.strip()):
        return False
return True
```
-/
def isValidGame (g : PyDict) : Bool :=
  ["game_id", "home_team_name", "away_team_name"].all (fun f =>
    match dictGet g f with
    | none => false
    | some v =>
      pyTruthy v && (match v with
        | .str s => pyStrip s != ""
        | _ => true))

/-- `_validate_games` (cache.py, lines 54-71). -/
def validateGames (games : List PyDict) : List PyDict :=
  games.filter isValidGame

/-- `cache_games` (cache.py, lines 74-99): returns the success flag and
the new cache state. -/
def cacheGames (c : CacheState) (date sport : String) (games : List PyDict) :
    Bool × CacheState :=
  if games.isEmpty then (false, c)
  else
    let validGames := validateGames games
    if validGames.isEmpty then (false, c)
    else (true, cacheSet c (makeKey date sport) validGames)

/-- `get_cached_games` (cache.py, lines 102-120). -/
def getCachedGames (c : CacheState) (date sport : String) : Option (List PyDict) :=
  cacheLookup c (makeKey date sport)

/-! ## `BaseSportsClient._make_request`
(src/server/services/sports/base/client.py, lines 62-120)

The possible fates of the wrapped `httpx` GET are the constructors of
`RequestOutcome`; each constructor corresponds to the most specific
`except` clause that catches the exception (so `timeoutExc` stands for
`httpx.TimeoutException` and its subclasses, `requestError` for
`httpx.RequestError` subclasses that are neither timeouts nor
`ConnectError`, `otherExc` for exceptions outside `httpx`/`OSError`). -/

inductive RequestOutcome where
  | success (json : JsonValue) : RequestOutcome
  | timeoutExc (typeName : String) : RequestOutcome
  | statusError (status : Nat) : RequestOutcome
  | connectError (msg : String) : RequestOutcome
  | requestError (typeName msg : String) : RequestOutcome
  | osError (msg : String) : RequestOutcome
  | otherExc (typeName msg : String) : RequestOutcome

/-- `_make_request`'s translation of each outcome into `APIError`;
`endpoint` is the request path and `timeoutStr` the string rendering of
`self.timeout`. -/
def makeRequest (endpoint timeoutStr : String) :
    RequestOutcome → Except APIError JsonValue
  | .success j => .ok j
  | .timeoutExc n => .error ⟨.TIMEOUT, "timeout=" ++ timeoutStr ++ "s, type=" ++ n⟩
  | .statusError s =>
    if s = 404 then .error ⟨.NOT_FOUND, "endpoint=" ++ endpoint⟩
    else if 500 ≤ s then .error ⟨.SERVER_ERROR, "status=" ++ toString s⟩
    else .error ⟨.UNKNOWN, "status=" ++ toString s⟩
  | .connectError m => .error ⟨.CONNECTION_ERROR, m⟩
  | .requestError n m => .error ⟨.CONNECTION_ERROR, n ++ ": " ++ m⟩
  | .osError m => .error ⟨.CONNECTION_ERROR, "Network error: " ++ m⟩
  | .otherExc n m => .error ⟨.UNKNOWN, n ++ ": " ++ m⟩

/-- Error code of a request result, `none` on success. -/
def apiResultCode (r : Except APIError JsonValue) : Option APIErrorCode :=
  match r with
  | .ok _ => none
  | .error e => some e.code

/-- The error-kind table of spec §7 as the claim states it, written from
the spec's words for comparison with `makeRequest`: TIMEOUT for any
timeout phase, NOT_FOUND for HTTP 404, SERVER_ERROR for 5xx,
CONNECTION_ERROR for DNS/connect/low-level network errors, UNKNOWN for
any other unexpected failure. -/
def specClaimedCode : RequestOutcome → Option APIErrorCode
  | .success _ => none
  | .timeoutExc _ => some .TIMEOUT
  | .statusError s =>
    if s = 404 then some .NOT_FOUND
    else if 500 ≤ s then some .SERVER_ERROR
    else some .UNKNOWN
  | .connectError _ => some .CONNECTION_ERROR
  | .requestError _ _ => some .CONNECTION_ERROR
  | .osError _ => some .CONNECTION_ERROR
  | .otherExc _ _ => some .UNKNOWN

/-! ## `BasketballClient` (src/server/services/sports/basketball/client.py) -/

/-- The `len(date) != 8 or not date.isdigit()` check of
`get_games_by_sport` (client.py, line 91), stated positively. -/
def isValidDateStr (date : String) : Bool :=
  date.length = 8 && date.data.all Char.isDigit

/-- `BasketballClient.get_games_by_sport` (client.py, lines 79-116).
`mockGames` stands for `MOCK_BASKETBALL_GAMES.get(key, [])` (the static
table itself lives in `mock_data.py`, imported by the client);
`net` is the outcome of the live HTTP GET. -/
def getGamesBySport (useMock : Bool) (mockGames : String → List JsonValue)
    (endpoint timeoutStr : String) (net : RequestOutcome) (date : String) :
    Except PyExc (List JsonValue) :=
  if !isValidDateStr date then
    .error (.valueError ("Invalid date format: " ++ date ++ ". Must be YYYYMMDD"))
  else if useMock then .ok (mockGames (date ++ "_basketball"))
  else
    match makeRequest endpoint timeoutStr net with
    | .error e => .error (.apiExc e)
    | .ok json => mapGamesList basketballGameFieldMap json

/-- Is this result the local date-format `ValueError` of
`get_games_by_sport`? -/
def isDateValidationError {α : Type} (date : String) (r : Except PyExc α) : Bool :=
  match r with
  | .error (.valueError m) => m = "Invalid date format: " ++ date ++ ". Must be YYYYMMDD"
  | _ => false

/-- Does the game row match `game["game_id"] == game_id`? (The mock
tables are literal data in which every row carries a string `game_id`,
so the `KeyError` path of `game["game_id"]` cannot fire.) -/
def gameIdMatches (g : PyDict) (gid : String) : Bool :=
  match dictGet g "game_id" with
  | some (.str s) => s = gid
  | _ => false

/-- Does the row satisfy `game["state"] == "b"`? -/
def gameStateIsB (g : PyDict) : Bool :=
  match dictGet g "state" with
  | some (.str s) => s = "b"
  | _ => false

/-- The mock branch of `BasketballClient.get_team_stats`
(client.py, lines 130-148): `teamStats` is `MOCK_BASKETBALL_TEAM_STATS.get`,
`gamesTable` is `MOCK_BASKETBALL_GAMES.values()`.

```python
stats = MOCK_BASKETBALL_TEAM_STATS.get(game_id)
if stats is None:
    for games in MOCK_BASKETBALL_GAMES.values():
        for game in games:
            if game["game_id"] == game_id:
                if game["state"] == "b":
                    raise ValueError(f"Game {game_id} has not started yet. ...")
                break
    raise ValueError(f"Game {game_id} not found")
return stats
```
The inner `break` only leaves the inner loop, so the not-found
`ValueError` is reached unless some day's first matching row has state
`"b"`. -/
def getTeamStatsMock (teamStats : String → Option (List JsonValue))
    (gamesTable : List (List PyDict)) (gid : String) :
    Except PyExc (List JsonValue) :=
  match teamStats gid with
  | some stats => .ok stats
  | none =>
    if gamesTable.any (fun games =>
        match games.find? (fun g => gameIdMatches g gid) with
        | some g => gameStateIsB g
        | none => false) then
      .error (.valueError ("Game " ++ gid ++ " has not started yet. Team stats not available."))
    else
      .error (.valueError ("Game " ++ gid ++ " not found"))

/-- Is this result an `APIError` of kind NOT_FOUND? -/
def isApiNotFound {α : Type} (r : Except PyExc α) : Bool :=
  match r with
  | .error (.apiExc e) => e.code = .NOT_FOUND
  | _ => false

/-! ## Endpoint resolver (src/server/services/sports/base/endpoints.py) -/

/-- `get_api_base_path`: `"/data3V1/livescore"` in production, with a
`"/dev"` prefix otherwise. -/
def apiBasePath (production : Bool) : String :=
  if production then "/data3V1/livescore" else "/dev/data3V1/livescore"

/-- `CommonEndpoints`: `hasattr(COMMON_ENDPOINTS, op)` holds for exactly
the `games` property among operation-name strings (dataclass dunder
attributes are not legal operation names and are not modelled). -/
def commonEndpoint (production : Bool) (op : String) : Option String :=
  if op = "games" then some (apiBasePath production ++ "/gameList") else none

/-- `SportEndpointConfig` (endpoints.py, lines 39-50). -/
structure SportEndpointConfig where
  sportName : String
  endpoints : List (String × String)
  useCommon : List String

/-- A single-quote character, for rendering Python string reprs. -/
def squoteChar : String := String.singleton (Char.ofNat 39)

/-- Python `repr` of a string (as it appears inside `str(list)`). -/
def pyQuote (s : String) : String := squoteChar ++ s ++ squoteChar

/-- Tail of Python's `str` rendering of a list of strings. -/
def pyStrListReprAux : List String → String
  | [] => ""
  | x :: xs => ", " ++ pyQuote x ++ pyStrListReprAux xs

/-- Python's `str` rendering of a list of strings, e.g. `['a', 'b']`. -/
def pyStrListRepr : List String → String
  | [] => "[]"
  | x :: xs => "[" ++ pyQuote x ++ pyStrListReprAux xs ++ "]"

/-- Insert into a sorted list of strings (code-point order, like Python). -/
def insertSorted (x : String) : List String → List String
  | [] => [x]
  | y :: ys => if x < y then x :: y :: ys else y :: insertSorted x ys

/-- `sorted` on a list of strings. -/
def sortedStrings (l : List String) : List String :=
  l.foldr insertSorted []

/-- The `ValueError` message of `get_endpoint` (endpoints.py, lines 78-83):
`available = list(self.endpoints.keys()) + list(self.use_common)`. -/
def endpointErrorMsg (cfg : SportEndpointConfig) (op : String) : String :=
  "Operation " ++ pyQuote op ++ " not supported for " ++ cfg.sportName ++
    ". Available: " ++ pyStrListRepr (sortedStrings (cfg.endpoints.map Prod.fst ++ cfg.useCommon))

/-- `SportEndpointConfig.get_endpoint` (endpoints.py, lines 52-83):
sport-specific entry first, then common, else `ValueError`. -/
def getEndpoint (production : Bool) (cfg : SportEndpointConfig) (op : String) :
    Except String String :=
  match fmLookup cfg.endpoints op with
  | some p => .ok p
  | none =>
    if op ∈ cfg.useCommon then
      match commonEndpoint production op with
      | some p => .ok p
      | none => .error (endpointErrorMsg cfg op)
    else .error (endpointErrorMsg cfg op)

/-- `BASKETBALL_ENDPOINTS`
(src/server/services/sports/basketball/endpoints.py). -/
def basketballEndpoints (production : Bool) : SportEndpointConfig :=
  { sportName := "basketball"
    endpoints :=
      [("team_stats", apiBasePath production ++ "/basketballTeamStat"),
       ("player_stats", apiBasePath production ++ "/basketballPlayerStat"),
       ("lineup", apiBasePath production ++ "/basketballLineup"),
       ("team_rank", apiBasePath production ++ "/basketballTeamRank"),
       ("team_vs_list", apiBasePath production ++ "/basketballVsInfo")]
    useCommon := ["games"] }

/-! ## Soccer mapper derived fields
(src/server/services/sports/soccer/mapper.py) -/

/-- `_safe_int` (soccer/mapper.py, lines 6-22). Python's `bool` is an
`int` subclass, so `True`/`False` hit the `isinstance(value, int)` branch
as 1/0; numbers are modelled as ints, so the float branch collapses into
the int branch; `int(str)` is modelled by `String.toInt?` (sign and
ASCII digits). -/
def safeInt (v : Option JsonValue) (dflt : Int) : Int :=
  match v with
  | none => dflt
  | some .null => dflt
  | some (.bool b) => if b then 1 else 0
  | some (.num n) => n
  | some (.str s) =>
    let t := pyStrip s
    if t = "" then dflt else (t.toInt?).getD dflt
  | some (.arr _) => dflt
  | some (.obj _) => dflt

/-- Python's `round` to the nearest integer, ties to even, applied to
the exact fraction `num / den` (0 when `den = 0`, a case the callers
exclude). -/
def roundHalfEvenFrac (num den : ℤ) : ℤ :=
  if den = 0 then 0
  else
    let n := if den < 0 then -num else num
    let d := if den < 0 then -den else den
    let f := Int.fdiv n d
    let r := n - f * d
    if 2 * r < d then f
    else if d < 2 * r then f + 1
    else if f % 2 = 0 then f else f + 1

/-- Rendering of a one-decimal float as Python's f-string does
(`round(x, 1)` repr), given its value in tenths. -/
def fmtTenths (t : ℤ) : String :=
  (if t < 0 then "-" else "") ++ toString (t.natAbs / 10) ++ "." ++ toString (t.natAbs % 10)

/-- `SoccerMapper._calc_pass_accuracy` (soccer/mapper.py, lines 352-365).

```python
total = _safe_int(stats.get("total_pass"), 0)
accurate = _safe_int(stats.get("accurate_pass"), 0)
if total == 0:
    return "-"
return f"{round(accurate / total * 100)}%"
```
-/
def calcPassAccuracy (stats : PyDict) : String :=
  let total := safeInt (dictGet stats "total_pass") 0
  let accurate := safeInt (dictGet stats "accurate_pass") 0
  if total = 0 then "-"
  else toString (roundHalfEvenFrac (accurate * 100) total) ++ "%"

/-- `SoccerMapper.get_team_rank_field_map` (soccer/mapper.py, lines 502-521). -/
def teamRankFieldMap : List (String × String) :=
  [("RANK", "rank"),
   ("TEAM_ID", "team_id"),
   ("GROUP_SC", "group"),
   ("GAME_CN", "games_played"),
   ("ALL_WP", "points"),
   ("ALL_W_CN", "wins"),
   ("ALL_D_CN", "draws"),
   ("ALL_L_CN", "losses"),
   ("ALL_R_SCORE", "goals_for"),
   ("ALL_L_SCORE", "goals_against"),
   ("GROUP_TYPE", "group_type"),
   ("GROUP_NAME", "group_name")]

/-- Loop body of `SoccerMapper.map_team_rank_list`
(soccer/mapper.py, lines 537-554): field mapping plus the derived
`goal_diff` and `win_rate` fields.

```python
mapped = self._apply_field_mapping(item, field_map)
goals_for = _safe_int(mapped.get("goals_for"), 0)
goals_against = _safe_int(mapped.get("goals_against"), 0)
mapped["goal_diff"] = goals_for - goals_against
games = _safe_int(mapped.get("games_played"), 0)
points = _safe_int(mapped.get("points"), 0)
if games > 0:
    max_points = games * 3
    mapped["win_rate"] = f"{round(points / max_points * 100, 1)}%"
else:
    mapped["win_rate"] = "0.0%"
```
-/
def mapTeamRankItem (item : JsonValue) : Except PyExc JsonValue :=
  match applyFieldMappingE teamRankFieldMap item with
  | .error e => .error e
  | .ok (.obj mapped) =>
    let goalsFor := safeInt (dictGet mapped "goals_for") 0
    let goalsAgainst := safeInt (dictGet mapped "goals_against") 0
    let m1 := dictSet mapped "goal_diff" (.num (goalsFor - goalsAgainst))
    let games := safeInt (dictGet m1 "games_played") 0
    let points := safeInt (dictGet m1 "points") 0
    let m2 :=
      if 0 < games then
        let maxPoints := games * 3
        dictSet m1 "win_rate"
          (.str (fmtTenths (roundHalfEvenFrac (points * 100 * 10) maxPoints) ++ "%"))
      else dictSet m1 "win_rate" (.str "0.0%")
    .ok (.obj m2)
  | .ok _ => .error .attributeError

/-- Python iteration over a JSON value (`for item in items`): lists yield
elements, strings characters, dicts keys; other values raise `TypeError`. -/
def pyIter (v : JsonValue) : Except PyExc (List JsonValue) :=
  match v with
  | .arr l => .ok l
  | .str s => .ok (s.data.map (fun c => .str (String.singleton c)))
  | .obj d => .ok (d.map (fun p => JsonValue.str p.1))
  | _ => .error .typeError

/-- `SoccerMapper.map_team_rank_list` (soccer/mapper.py, lines 523-556):
`response.get("Data", {})`, then `data.get("list", [])`, then the mapped
rows; `.get` on a non-dict raises `AttributeError`. -/
def mapTeamRankList (resp : JsonValue) : Except PyExc (List JsonValue) :=
  match resp with
  | .obj d =>
    match (dictGet d "Data").getD (.obj []) with
    | .obj dd =>
      match pyIter ((dictGet dd "list").getD (.arr [])) with
      | .ok items => mapListE mapTeamRankItem items
      | .error e => .error e
    | _ => .error .attributeError
  | _ => .error .attributeError

/-- The pass-accuracy formula as the claim words it — `accurate / total
* 100`, rounded to ONE DECIMAL, placeholder on zero denominator —
written from the spec for comparison with `calcPassAccuracy`. -/
def specPassAccuracyOneDecimal (stats : PyDict) : String :=
  let total := safeInt (dictGet stats "total_pass") 0
  let accurate := safeInt (dictGet stats "accurate_pass") 0
  if total = 0 then "-"
  else fmtTenths (roundHalfEvenFrac (accurate * 100 * 10) total) ++ "%"

/-- The win-rate formula of the claim: `points / (games_played * 3)`
expressed as a percentage (one decimal, as the code renders it). -/
def specWinRate (points games : ℤ) : String :=
  fmtTenths (roundHalfEvenFrac (points * 100 * 10) (games * 3)) ++ "%"

/-- Substring occurrence (used to state that an error message names a
sport or an operation). -/
def strContainsSub (hay needle : String) : Prop :=
  ∃ pre post, hay = pre ++ needle ++ post

/-! ## Dictionary lemmas -/

theorem dictGet_dictSet_self (d : PyDict) (k : String) (v : JsonValue) :
    dictGet (dictSet d k v) k = some v := by
  induction d with
  | nil => simp [dictSet, dictGet]
  | cons hd tl ih =>
    obtain ⟨k', v'⟩ := hd
    by_cases h : k' = k
    · simp [dictSet, dictGet, h]
    · simp [dictSet, dictGet, h, ih]

theorem dictGet_dictSet_ne (d : PyDict) (k k' : String) (v : JsonValue)
    (h : k ≠ k') : dictGet (dictSet d k v) k' = dictGet d k' := by
  induction d with
  | nil => simp [dictSet, dictGet, h]
  | cons hd tl ih =>
    obtain ⟨k0, v0⟩ := hd
    by_cases h0 : k0 = k
    · subst h0
      simp [dictSet, dictGet, h]
    · simp only [dictSet, if_neg h0]
      by_cases h1 : k0 = k'
      · simp [dictGet, h1]
      · simp [dictGet, h1, ih]

theorem dictGet_eq_none_of_not_mem (d : PyDict) (k : String)
    (h : k ∉ dictKeys d) : dictGet d k = none := by
  induction d with
  | nil => rfl
  | cons hd tl ih =>
    obtain ⟨k', v'⟩ := hd
    simp only [dictKeys, List.map_cons, List.mem_cons] at h
    push_neg at h
    simp [dictGet, Ne.symm h.1, ih (by simpa [dictKeys] using h.2)]

theorem dictGet_of_mem_nodup (d : PyDict) (k : String) (v : JsonValue)
    (hnd : (dictKeys d).Nodup) (hmem : (k, v) ∈ d) : dictGet d k = some v := by
  induction d with
  | nil => simp at hmem
  | cons hd tl ih =>
    obtain ⟨k', v'⟩ := hd
    simp only [List.mem_cons] at hmem
    simp only [dictKeys, List.map_cons, List.nodup_cons] at hnd
    rcases hmem with heq | hmem
    · obtain ⟨rfl, rfl⟩ := Prod.mk.injEq .. ▸ heq
      · simp [dictGet]
    · have hk : k' ≠ k := by
        rintro rfl
        exact hnd.1 (List.mem_map.2 ⟨(k', v), hmem, rfl⟩)
      simp [dictGet, hk, ih hnd.2 hmem]

theorem dictSet_eq_append_of_not_mem (d : PyDict) (k : String) (v : JsonValue)
    (h : k ∉ dictKeys d) : dictSet d k v = d ++ [(k, v)] := by
  induction d with
  | nil => rfl
  | cons hd tl ih =>
    obtain ⟨k', v'⟩ := hd
    simp only [dictKeys, List.map_cons, List.mem_cons] at h
    push_neg at h
    simp [dictSet, Ne.symm h.1, ih (by simpa [dictKeys] using h.2)]

theorem dictKeys_dictSet (d : PyDict) (k : String) (v : JsonValue) :
    dictKeys (dictSet d k v) = if k ∈ dictKeys d then dictKeys d else dictKeys d ++ [k] := by
  induction d with
  | nil => simp [dictSet, dictKeys]
  | cons hd tl ih =>
    obtain ⟨k', v'⟩ := hd
    by_cases h : k' = k
    · subst h
      simp [dictSet, dictKeys]
    · have hset : dictSet ((k', v') :: tl) k v = (k', v') :: dictSet tl k v := by
        simp [dictSet, h]
      rw [hset]
      have hcons : dictKeys ((k', v') :: dictSet tl k v) = k' :: dictKeys (dictSet tl k v) := rfl
      rw [hcons, ih]
      have hck : dictKeys ((k', v') :: tl) = k' :: dictKeys tl := rfl
      by_cases hm : k ∈ dictKeys tl
      · simp [hck, hm, Ne.symm h]
      · simp [hck, hm, Ne.symm h]

theorem dictKeys_nodup_dictSet (d : PyDict) (k : String) (v : JsonValue)
    (h : (dictKeys d).Nodup) : (dictKeys (dictSet d k v)).Nodup := by
  rw [dictKeys_dictSet]
  by_cases hm : k ∈ dictKeys d
  · simpa [hm] using h
  · simp only [hm, if_false]
    simpa [List.nodup_append] using ⟨h, hm⟩

theorem fmLookup_eq_none_of_not_mem (fm : List (String × String)) (k : String)
    (h : k ∉ fm.map Prod.fst) : fmLookup fm k = none := by
  induction fm with
  | nil => rfl
  | cons hd tl ih =>
    obtain ⟨k', v'⟩ := hd
    simp only [List.map_cons, List.mem_cons] at h
    push_neg at h
    simp [fmLookup, Ne.symm h.1, ih h.2]

theorem fmLookup_isSome_of_mem (fm : List (String × String)) (k : String)
    (h : k ∈ fm.map Prod.fst) : (fmLookup fm k).isSome := by
  induction fm with
  | nil => simp at h
  | cons hd tl ih =>
    obtain ⟨k', v'⟩ := hd
    by_cases hk : k' = k
    · simp [fmLookup, hk]
    · simp only [List.map_cons, List.mem_cons] at h
      rcases h with h | h
    
      · exact absurd h.symm hk
      · simp [fmLookup, hk, ih h]

theorem fmLookup_mem (fm : List (String × String)) (k t : String)
    (h : fmLookup fm k = some t) : (k, t) ∈ fm := by
  induction fm with
  | nil => simp [fmLookup] at h
  | cons hd tl ih =>
    obtain ⟨k', v'⟩ := hd
    by_cases hk : k' = k
    · subst hk
      simp only [fmLookup, if_pos] at h
      rw [Option.some.injEq] at h
      subst h
      exact List.mem_cons_self _ _
    · simp only [fmLookup, if_neg hk] at h
      exact List.mem_cons_of_mem _ (ih h)

/-! ## Claim C1 — envelope robustness of `map_games_list` -/

/-- C1 (counterexample): the five envelope shapes do NOT all agree —
`{"Data": [...]}` is not recognized by `map_games_list` (the `Data`
branch requires a dict and the legacy loop only checks lowercase
`"data"`), so the same one-game logical list yields the mapped game for
a bare list but the empty list for the `Data`-as-list shape. -/
theorem mapGamesList_data_as_list_counterexample :
    mapGamesList soccerGameFieldMap (.arr [.obj [("GAME_ID", .str "G1")]])
        = .ok [.obj [("game_id", .str "G1")]] ∧
    mapGamesList soccerGameFieldMap
        (.obj [("Data", .arr [.obj [("GAME_ID", .str "G1")]])]) = .ok [] ∧
    (Except.ok [JsonValue.obj [("game_id", .str "G1")]] : Except PyExc (List JsonValue))
        ≠ .ok [] := by
  refine ⟨rfl, rfl, ?_⟩
  simp

/-- C1 (amended): for every field map and every logical list, the four
shapes `map_games_list` actually recognizes — a bare list,
`{"Data": {"list": [...]}}`, and the legacy single-key wrappers
`games`/`data`/`results`/`items`/`list` — all yield the identical
normalized list, while the `{"Data": [...]}` shape yields `[]`. -/
theorem mapGamesList_envelope_agreement (fm : List (String × String))
    (l : List JsonValue) :
    mapGamesList fm (.obj [("Data", .obj [("list", .arr l)])]) = mapGamesList fm (.arr l) ∧
    mapGamesList fm (.obj [("games", .arr l)]) = mapGamesList fm (.arr l) ∧
    mapGamesList fm (.obj [("data", .arr l)]) = mapGamesList fm (.arr l) ∧
    mapGamesList fm (.obj [("results", .arr l)]) = mapGamesList fm (.arr l) ∧
    mapGamesList fm (.obj [("items", .arr l)]) = mapGamesList fm (.arr l) ∧
    mapGamesList fm (.obj [("list", .arr l)]) = mapGamesList fm (.arr l) ∧
    mapGamesList fm (.obj [("Data", .arr l)]) = .ok [] :=
  ⟨rfl, rfl, rfl, rfl, rfl, rfl, rfl⟩

/-! ## Claim C9 — `map_games_list` degrades to empty, but can raise
per-item -/

/-- C9 (counterexample): `map_games_list` does not tolerate arbitrary
JSON-like input — a recognized envelope (here a bare list) whose items
are not dicts raises (`api_field in 1` is a `TypeError`) instead of
returning a value. -/
theorem mapGamesList_raises_counterexample :
    mapGamesList soccerGameFieldMap (.arr [.num 1]) = .error .typeError ∧
    pyRaises (mapGamesList soccerGameFieldMap (.arr [.num 1])) = true :=
  ⟨rfl, rfl⟩

/-- C9 (amended): `map_games_list` never raises on the envelope itself:
every dict in which neither the `Data`-as-dict branch nor any legacy key
matches returns `[]`, and every non-list non-dict value returns `[]`;
raising is possible only through per-item field mapping of a recognized
list whose items are not dicts. -/
theorem mapGamesList_unrecognized_degrades :
    (∀ (fm : List (String × String)) (d : PyDict),
      dataDictBranchHits d = false →
      legacyKeyList d ["games", "data", "results", "items", "list"] = none →
      mapGamesList fm (.obj d) = .ok []) ∧
    (∀ fm, mapGamesList fm .null = .ok []) ∧
    (∀ fm b, mapGamesList fm (.bool b) = .ok []) ∧
    (∀ fm n, mapGamesList fm (.num n) = .ok []) ∧
    (∀ fm s, mapGamesList fm (.str s) = .ok []) := by
  refine ⟨?_, fun _ => rfl, fun _ _ => rfl, fun _ _ => rfl, fun _ _ => rfl⟩
  intro fm d hdb hleg
  unfold mapGamesList
  cases h : dictGet d "Data" with
  | none => simp [h, legacyBranch, hleg]
  | some v =>
    cases v with
    | obj dd =>
      rw [dataDictBranchHits, h] at hdb
      cases hl : (dictGet dd "list").getD (.arr []) <;>
        simp_all [legacyBranch, hleg]
    | null => simp [h, legacyBranch, hleg]
    | bool b => simp [h, legacyBranch, hleg]
    | num n => simp [h, legacyBranch, hleg]
    | str s => simp [h, legacyBranch, hleg]
    | arr l => simp [h, legacyBranch, hleg]

/-- C9 (witness for the amended theorem): a dict matching no recognized
envelope degrades to the empty list. -/
theorem mapGamesList_unrecognized_degrades_witness :
    mapGamesList soccerGameFieldMap (.obj [("foo", .num 1)]) = .ok [] :=
  mapGamesList_unrecognized_degrades.1 soccerGameFieldMap [("foo", .num 1)] rfl rfl

/-! ## Claim C4 — `_make_request` error taxonomy -/

/-- C4: every non-success outcome of the wrapped HTTP call surfaces as a
typed `APIError` whose kind follows the trigger (TIMEOUT for any timeout
phase, NOT_FOUND for 404, SERVER_ERROR for 5xx, CONNECTION_ERROR for
connect/request/OS-level network errors, UNKNOWN otherwise), the
genuinely unexpected failure is wrapped with the original type name, and
no raw transport exception ever escapes (every failure constructor maps
to `.error`). -/
theorem makeRequest_error_taxonomy :
    (∀ ep ts o, apiResultCode (makeRequest ep ts o) = specClaimedCode o) ∧
    (∀ ep ts n m, makeRequest ep ts (.otherExc n m) = .error ⟨.UNKNOWN, n ++ ": " ++ m⟩) ∧
    (∀ ep ts j, makeRequest ep ts (.success j) = .ok j) := by
  refine ⟨?_, fun _ _ _ _ => rfl, fun _ _ _ => rfl⟩
  intro ep ts o
  cases o with
  | statusError s =>
    by_cases h4 : s = 404
    · simp [makeRequest, apiResultCode, specClaimedCode, h4]
    · by_cases h5 : 500 ≤ s <;>
        simp [makeRequest, apiResultCode, specClaimedCode, h4, h5]
  | success j => rfl
  | timeoutExc n => rfl
  | connectError m => rfl
  | requestError n m => rfl
  | osError m => rfl
  | otherExc n m => rfl

/-! ## Claim C7 — local date validation in `get_games_by_sport` -/

theorem applyFieldMappingE_error_shape (fm : List (String × String))
    (v : JsonValue) (e : PyExc) (h : applyFieldMappingE fm v = .error e) :
    e = .typeError ∨ e = .attributeError := by
  unfold applyFieldMappingE at h
  by_cases hfm : fm = []
  · simp [hfm] at h
  · rw [if_neg hfm] at h
    split at h <;>
      first
      | (split at h <;> simp_all)
      | simp_all

theorem mapListE_error_shape (f : JsonValue → Except PyExc JsonValue)
    (l : List JsonValue) (e : PyExc)
    (hf : ∀ x ex, f x = .error ex → ex = .typeError ∨ ex = .attributeError)
    (h : mapListE f l = .error e) : e = .typeError ∨ e = .attributeError := by
  induction l with
  | nil => simp [mapListE] at h
  | cons x xs ih =>
    unfold mapListE at h
    cases hx : f x with
    | error ex =>
      simp only [hx, Except.error.injEq] at h
      exact h ▸ hf x ex hx
    | ok y =>
      simp only [hx] at h
      cases hr : mapListE f xs with
      | error e2 =>
        simp only [hr, Except.error.injEq] at h
        rw [h] at hr
        exact ih hr
      | ok ys => simp [hr] at h

theorem mapGamesList_error_shape (fm : List (String × String)) (v : JsonValue)
    (e : PyExc) (h : mapGamesList fm v = .error e) :
    e = .typeError ∨ e = .attributeError := by
  have hitem := applyFieldMappingE_error_shape fm
  cases v with
  | arr l =>
    exact mapListE_error_shape _ l e (fun x ex hx => hitem x ex hx)
      (by simpa [mapGamesList] using h)
  | obj d =>
    have hleg : legacyBranch fm d = .error e →
        e = .typeError ∨ e = .attributeError := by
      intro hr
      unfold legacyBranch at hr
      cases hk : legacyKeyList d ["games", "data", "results", "items", "list"] with
      | some l =>
        rw [hk] at hr
        exact mapListE_error_shape _ l e (fun x ex hx => hitem x ex hx) hr
      | none => rw [hk] at hr; simp at hr
    have hobj : mapGamesList fm (.obj d) =
        (match dictGet d "Data" with
          | some (.obj dd) =>
            (match (dictGet dd "list").getD (.arr []) with
              | .arr l => mapListE (applyFieldMappingE fm) l
              | _ => legacyBranch fm d)
          | _ => legacyBranch fm d) := rfl
    rw [hobj] at h
    split at h
    · split at h
      · exact mapListE_error_shape _ _ e (fun x ex hx => hitem x ex hx) h
      · exact hleg h
    · exact hleg h
  | null => simp [mapGamesList] at h
  | bool b => simp [mapGamesList] at h
  | num n => simp [mapGamesList] at h
  | str s => simp [mapGamesList] at h

/-- C7: a date string failing the 8-digit check makes
`get_games_by_sport` fail with the local `ValueError` immediately, for
every mode and every network outcome (so before and independent of any
network call); a date string passing the check never produces that
validation error. -/
theorem getGamesBySport_date_validation :
    (∀ useMock mockGames ep ts net date, isValidDateStr date = false →
      getGamesBySport useMock mockGames ep ts net date =
        .error (.valueError ("Invalid date format: " ++ date ++ ". Must be YYYYMMDD"))) ∧
    (∀ useMock mockGames ep ts net date, isValidDateStr date = true →
      isDateValidationError date (getGamesBySport useMock mockGames ep ts net date) = false) := by
  constructor
  · intro useMock mockGames ep ts net date hbad
    simp [getGamesBySport, hbad]
  · intro useMock mockGames ep ts net date hok
    unfold getGamesBySport
    rw [hok]
    simp only [Bool.not_true, Bool.false_eq_true, if_false]
    by_cases hm : useMock
    · simp [hm, isDateValidationError]
    · simp only [hm, if_false]
      cases hr : makeRequest ep ts net with
      | error e => simp [isDateValidationError]
      | ok json =>
        cases hg : mapGamesList basketballGameFieldMap json with
        | ok l => simp [isDateValidationError, hg]
        | error e =>
          rcases mapGamesList_error_shape _ _ _ hg with rfl | rfl <;>
            simp [isDateValidationError, hg]

/-- C7 (witness): the empty date string is rejected locally; the
concrete 8-digit date `"20251118"` in mock mode is not. -/
theorem getGamesBySport_date_validation_witness :
    getGamesBySport true (fun _ => []) "/e" "10.0" (.success .null) "2024" =
      .error (.valueError ("Invalid date format: " ++ "2024" ++ ". Must be YYYYMMDD")) ∧
    isDateValidationError "20251118"
      (getGamesBySport true (fun _ => []) "/e" "10.0" (.success .null) "20251118") = false :=
  ⟨getGamesBySport_date_validation.1 true (fun _ => []) "/e" "10.0" (.success .null) "2024" rfl,
   getGamesBySport_date_validation.2 true (fun _ => []) "/e" "10.0" (.success .null) "20251118" rfl⟩

/-! ## Claim C3 — mock-mode not-found error kind -/

/-- C3 (counterexample): in mock mode, a game id absent from the static
dataset makes `get_team_stats` raise `ValueError("Game ... not found")`,
which is not an `APIError` of kind NOT_FOUND — refuting the claim that
mock not-found failures carry the NOT_FOUND kind of the APIError
taxonomy. -/
theorem getTeamStatsMock_valueError_counterexample :
    getTeamStatsMock (fun _ => none) [] "G999" =
      .error (.valueError "Game G999 not found") ∧
    isApiNotFound (getTeamStatsMock (fun _ => none) [] "G999") = false :=
  ⟨rfl, rfl⟩

/-- C3 (amended): the mock branch of `get_team_stats` never produces an
`APIError` at all — let alone NOT_FOUND; a game id absent from the stats
table whose rows never match with state `"b"` raises the not-found
`ValueError`, and an id absent but scheduled (first matching row has
state `"b"`) raises the not-started `ValueError`. -/
theorem getTeamStatsMock_not_found_is_valueError :
    (∀ teamStats gamesTable gid,
      isApiNotFound (getTeamStatsMock teamStats gamesTable gid) = false) ∧
    (∀ (teamStats : String → Option (List JsonValue))
        (gamesTable : List (List PyDict)) (gid : String),
      teamStats gid = none →
      (gamesTable.any (fun games =>
        match games.find? (fun g => gameIdMatches g gid) with
        | some g => gameStateIsB g
        | none => false)) = false →
      getTeamStatsMock teamStats gamesTable gid =
        .error (.valueError ("Game " ++ gid ++ " not found"))) := by
  constructor
  · intro teamStats gamesTable gid
    unfold getTeamStatsMock
    split
    · rfl
    · split <;> rfl
  · intro teamStats gamesTable gid hts hscan
    unfold getTeamStatsMock
    rw [hts, hscan]
    rfl

/-- C3 (witness for the amended theorem): with an empty dataset, the
lookup for `"G1"` is the not-found `ValueError`. -/
theorem getTeamStatsMock_not_found_is_valueError_witness :
    getTeamStatsMock (fun _ => none) [] "G1" =
      .error (.valueError ("Game " ++ "G1" ++ " not found")) :=
  getTeamStatsMock_not_found_is_valueError.2 (fun _ => none) [] "G1" rfl rfl

/-! ## Claim C2 — cache admission invariant -/

theorem cacheLookup_cacheSet_self (c : CacheState) (k : String) (v : List PyDict) :
    cacheLookup (cacheSet c k v) k = some v := by
  induction c with
  | nil => simp [cacheSet, cacheLookup]
  | cons hd tl ih =>
    obtain ⟨k', v'⟩ := hd
    by_cases h : k' = k
    · simp [cacheSet, cacheLookup, h]
    · simp [cacheSet, cacheLookup, h, ih]

/-- C2 (amended): `cache_games` admits iff some game is valid; on
admission the immediately following `get_cached_games` returns exactly
the validated subset; on rejection the cache state is untouched, so the
lookup afterwards equals the lookup before (and is `None` exactly when
no entry for the key existed already). -/
theorem cacheGames_admission_invariant (c : CacheState) (d s : String)
    (gs : List PyDict) :
    ((cacheGames c d s gs).1 = true ↔ ∃ g ∈ gs, isValidGame g = true) ∧
    ((cacheGames c d s gs).1 = true →
      getCachedGames (cacheGames c d s gs).2 d s = some (validateGames gs)) ∧
    ((cacheGames c d s gs).1 = false → (cacheGames c d s gs).2 = c) := by
  refine ⟨?_, ?_, ?_⟩
  · unfold cacheGames
    by_cases hemp : gs.isEmpty
    · rw [List.isEmpty_iff] at hemp
      subst hemp
      simp
    · simp only [hemp, if_false]
      by_cases hval : (validateGames gs).isEmpty
      · rw [List.isEmpty_iff] at hval
        simp only [hval, List.isEmpty_nil, if_true]
        constructor
        · intro hft
          simp at hft
        · rintro ⟨g, hg, hvg⟩
          unfold validateGames at hval
          rw [List.filter_eq_nil_iff] at hval
          exact absurd hvg (by simpa using hval g hg)
      · rw [Bool.not_eq_true] at hval
        simp only [hval, Bool.false_eq_true, if_false]
        have hvne : validateGames gs ≠ [] := by
          intro h0
          rw [h0] at hval
          simp at hval
        constructor
        · intro _
          obtain ⟨g, hg⟩ := List.exists_mem_of_ne_nil _ hvne
          unfold validateGames at hg
          exact ⟨g, (List.mem_filter.1 hg).1, (List.mem_filter.1 hg).2⟩
        · intro _
          trivial
  · intro htrue
    unfold cacheGames at htrue ⊢
    by_cases hemp : gs.isEmpty
    · simp [hemp] at htrue
    · simp only [hemp, if_false] at htrue ⊢
      by_cases hval : (validateGames gs).isEmpty
      · simp [hval] at htrue
      · simp only [hval, if_false]
        exact cacheLookup_cacheSet_self c (makeKey d s) (validateGames gs)
  · intro hfalse
    unfold cacheGames at hfalse ⊢
    by_cases hemp : gs.isEmpty
    · simp [hemp]
    · simp only [hemp, if_false] at hfalse ⊢
      by_cases hval : (validateGames gs).isEmpty
      · simp [hval]
      · simp [hval] at hfalse

/-- C2 (witness for the amended theorem): a singleton valid batch is
admitted and read back; an all-invalid batch is rejected leaving the
state alone. -/
theorem cacheGames_admission_invariant_witness :
    ((cacheGames [] "20241222" "basketball"
        [[("game_id", .str "G1"), ("home_team_name", .str "H"), ("away_team_name", .str "A")]]).1
        = true →
      getCachedGames (cacheGames [] "20241222" "basketball"
        [[("game_id", .str "G1"), ("home_team_name", .str "H"), ("away_team_name", .str "A")]]).2
        "20241222" "basketball" =
        some (validateGames
          [[("game_id", .str "G1"), ("home_team_name", .str "H"), ("away_team_name", .str "A")]])) ∧
    ((cacheGames [] "20241222" "basketball" [[("game_id", .str "")]]).1 = false →
      (cacheGames [] "20241222" "basketball" [[("game_id", .str "")]]).2 = []) :=
  ⟨(cacheGames_admission_invariant [] "20241222" "basketball"
      [[("game_id", .str "G1"), ("home_team_name", .str "H"), ("away_team_name", .str "A")]]).2.1,
   (cacheGames_admission_invariant [] "20241222" "basketball"
      [[("game_id", .str "")]]).2.2⟩

/-- C2 (counterexample): after a valid batch is cached, a failed
admission for the same key leaves the stale entry readable —
`get_cached_games` returns the earlier list, not `None`, refuting the
claim's "returns None when admission returned False". -/
theorem cacheGames_stale_entry_counterexample :
    (cacheGames [] "20241222" "basketball"
      [[("game_id", .str "G1"), ("home_team_name", .str "H"), ("away_team_name", .str "A")]]).1
      = true ∧
    (cacheGames
      (cacheGames [] "20241222" "basketball"
        [[("game_id", .str "G1"), ("home_team_name", .str "H"), ("away_team_name", .str "A")]]).2
      "20241222" "basketball" [[("game_id", .str "")]]).1 = false ∧
    getCachedGames
      (cacheGames
        (cacheGames [] "20241222" "basketball"
          [[("game_id", .str "G1"), ("home_team_name", .str "H"), ("away_team_name", .str "A")]]).2
        "20241222" "basketball" [[("game_id", .str "")]]).2
      "20241222" "basketball" =
      some [[("game_id", .str "G1"), ("home_team_name", .str "H"), ("away_team_name", .str "A")]] ∧
    (some [[("game_id", JsonValue.str "G1"), ("home_team_name", .str "H"),
        ("away_team_name", .str "A")]] : Option (List PyDict)) ≠ none := by
  refine ⟨rfl, rfl, rfl, ?_⟩
  simp

/-! ## Field-mapping lemmas (for claims C5 and C10) -/

theorem mapPass1_get_of_not_presentTarget (fm : List (String × String))
    (data : PyDict) (t : String) (h : t ∉ presentTargets fm data) (m : PyDict) :
    dictGet (mapPass1 fm data m) t = dictGet m t := by
  induction fm generalizing m with
  | nil => rfl
  | cons hd tl ih =>
    obtain ⟨a0, t0⟩ := hd
    cases hg : dictGet data a0 with
    | some v0 =>
      have hpt : presentTargets ((a0, t0) :: tl) data = t0 :: presentTargets tl data := by
        simp [presentTargets, hg]
      rw [hpt, List.mem_cons] at h
      push_neg at h
      have hstep : mapPass1 ((a0, t0) :: tl) data m = mapPass1 tl data (dictSet m t0 v0) := by
        simp [mapPass1, hg]
      rw [hstep, ih h.2, dictGet_dictSet_ne _ _ _ _ (Ne.symm h.1)]
    | none =>
      have hpt : presentTargets ((a0, t0) :: tl) data = presentTargets tl data := by
        simp [presentTargets, hg]
      rw [hpt] at h
      have hstep : mapPass1 ((a0, t0) :: tl) data m = mapPass1 tl data m := by
        simp [mapPass1, hg]
      rw [hstep, ih h]

theorem mapPass1_get (fm : List (String × String)) (data : PyDict)
    (a t : String) (v : JsonValue)
    (hnd : (fm.map Prod.fst).Nodup)
    (hinj : ∀ p q, p ∈ fm → q ∈ fm → (dictGet data p.1).isSome →
      (dictGet data q.1).isSome → p.2 = q.2 → p.1 = q.1)
    (hmem : (a, t) ∈ fm) (hv : dictGet data a = some v) (m : PyDict) :
    dictGet (mapPass1 fm data m) t = some v := by
  induction fm generalizing m with
  | nil => simp at hmem
  | cons hd tl ih =>
    obtain ⟨a0, t0⟩ := hd
    simp only [List.map_cons, List.nodup_cons] at hnd
    rcases List.mem_cons.1 hmem with heq | hmem'
    · obtain ⟨h1, h2⟩ := Prod.ext_iff.1 heq
      dsimp only at h1 h2
      subst h1
      subst h2
      have hstep : mapPass1 ((a, t) :: tl) data m = mapPass1 tl data (dictSet m t v) := by
        simp [mapPass1, hv]
      rw [hstep]
      have hnt : t ∉ presentTargets tl data := by
        intro hmem2
        unfold presentTargets at hmem2
        rw [List.mem_filterMap] at hmem2
        obtain ⟨q, hqtl, hq⟩ := hmem2
        by_cases hqs : (dictGet data q.1).isSome
        · rw [if_pos hqs] at hq
          have hq2 : q.2 = t := by simpa using hq
          have hq1 : q.1 = a :=
            hinj q (a, t) (List.mem_cons_of_mem _ hqtl) (List.mem_cons_self _ _)
              hqs (by simp [hv]) (by simpa using hq2)
          exact hnd.1 (hq1 ▸ List.mem_map.2 ⟨q, hqtl, rfl⟩)
        · rw [if_neg hqs] at hq
          simp at hq
      rw [mapPass1_get_of_not_presentTarget tl data t hnt]
      exact dictGet_dictSet_self m t v
    · have hinj' : ∀ p q, p ∈ tl → q ∈ tl → (dictGet data p.1).isSome →
          (dictGet data q.1).isSome → p.2 = q.2 → p.1 = q.1 :=
        fun p q hp hq => hinj p q (List.mem_cons_of_mem _ hp) (List.mem_cons_of_mem _ hq)
      cases hg : dictGet data a0 with
      | some v0 =>
        have hstep : mapPass1 ((a0, t0) :: tl) data m = mapPass1 tl data (dictSet m t0 v0) := by
          simp [mapPass1, hg]
        rw [hstep]
        exact ih hnd.2 hinj' hmem' _
      | none =>
        have hstep : mapPass1 ((a0, t0) :: tl) data m = mapPass1 tl data m := by
          simp [mapPass1, hg]
        rw [hstep]
        exact ih hnd.2 hinj' hmem' _

theorem mapPass2_preserves (data : PyDict) (fm : List (String × String))
    (k : String) (v : JsonValue) (m : PyDict) (h : dictGet m k = some v) :
    dictGet (mapPass2 data fm m) k = some v := by
  induction data generalizing m with
  | nil => exact h
  | cons hd tl ih =>
    obtain ⟨k0, v0⟩ := hd
    unfold mapPass2
    cases hc : fmLookup fm k0 with
    | some t =>
      simp only [hc, Option.isSome_some, if_true]
      exact ih m h
    | none =>
      simp only [hc, Option.isSome_none, Bool.false_eq_true, if_false]
      cases hm0 : dictGet m k0 with
      | some w =>
        simp only [hm0, Option.isSome_some, if_true]
        exact ih m h
      | none =>
        simp only [hm0, Option.isSome_none, Bool.false_eq_true, if_false]
        apply ih
        have hne : k0 ≠ k := by
          rintro rfl
          rw [h] at hm0
          cases hm0
        rw [dictGet_dictSet_ne _ _ _ _ hne]
        exact h

theorem mapPass2_unmapped (data : PyDict) (fm : List (String × String))
    (k : String) (v : JsonValue)
    (hnd : (dictKeys data).Nodup) (hmem : (k, v) ∈ data)
    (hfm : fmLookup fm k = none) (m : PyDict) (hm : dictGet m k = none) :
    dictGet (mapPass2 data fm m) k = some v := by
  induction data generalizing m with
  | nil => simp at hmem
  | cons hd tl ih =>
    obtain ⟨k0, v0⟩ := hd
    simp only [dictKeys, List.map_cons, List.nodup_cons] at hnd
    rcases List.mem_cons.1 hmem with heq | hmem'
    · obtain ⟨h1, h2⟩ := Prod.ext_iff.1 heq
      dsimp only at h1 h2
      subst h1
      subst h2
      unfold mapPass2
      simp only [hfm, hm, Option.isSome_none, Bool.false_eq_true, if_false]
      exact mapPass2_preserves tl fm k v _ (dictGet_dictSet_self m k v)
    · have hk0 : k0 ≠ k := by
        rintro rfl
        exact hnd.1 (List.mem_map.2 ⟨(k0, v), hmem', rfl⟩)
      unfold mapPass2
      cases hc : fmLookup fm k0 with
      | some t =>
        simp only [hc, Option.isSome_some, if_true]
        exact ih hnd.2 hmem' m hm
      | none =>
        simp only [hc, Option.isSome_none, Bool.false_eq_true, if_false]
        cases hm0 : dictGet m k0 with
        | some w =>
          simp only [hm0, Option.isSome_some, if_true]
          exact ih hnd.2 hmem' m hm
        | none =>
          simp only [hm0, Option.isSome_none, Bool.false_eq_true, if_false]
          apply ih hnd.2 hmem'
          rw [dictGet_dictSet_ne _ _ _ _ hk0]
          exact hm

theorem mapPass1_id_of_absent (fm : List (String × String)) (data : PyDict)
    (h : ∀ a ∈ fm.map Prod.fst, dictGet data a = none) (m : PyDict) :
    mapPass1 fm data m = m := by
  induction fm generalizing m with
  | nil => rfl
  | cons hd tl ih =>
    obtain ⟨a0, t0⟩ := hd
    have h0 : dictGet data a0 = none := h a0 (by simp)
    have hstep : mapPass1 ((a0, t0) :: tl) data m = mapPass1 tl data m := by
      simp [mapPass1, h0]
    rw [hstep]
    exact ih (fun a ha => h a (by simp [ha])) m

theorem mapPass1_keys_sub (fm : List (String × String)) (data : PyDict)
    (k : String) (m : PyDict) (h : k ∈ dictKeys (mapPass1 fm data m)) :
    k ∈ dictKeys m ∨ k ∈ fm.map Prod.snd := by
  induction fm generalizing m with
  | nil => exact Or.inl h
  | cons hd tl ih =>
    obtain ⟨a0, t0⟩ := hd
    cases hg : dictGet data a0 with
    | some v0 =>
      have hstep : mapPass1 ((a0, t0) :: tl) data m = mapPass1 tl data (dictSet m t0 v0) := by
        simp [mapPass1, hg]
      rw [hstep] at h
      rcases ih _ h with hm | ht
      · rw [dictKeys_dictSet] at hm
        split at hm
        · exact Or.inl hm
        · rcases List.mem_append.1 hm with h1 | h1
          · exact Or.inl h1
          · have : k = t0 := by simpa using h1
            exact Or.inr (by simp [this])
      · exact Or.inr (by simp [ht])
    | none =>
      have hstep : mapPass1 ((a0, t0) :: tl) data m = mapPass1 tl data m := by
        simp [mapPass1, hg]
      rw [hstep] at h
      rcases ih _ h with hm | ht
      · exact Or.inl hm
      · exact Or.inr (by simp [ht])

theorem mapPass2_keys_sub (data : PyDict) (fm : List (String × String))
    (k : String) (m : PyDict) (h : k ∈ dictKeys (mapPass2 data fm m)) :
    k ∈ dictKeys m ∨ (k ∈ dictKeys data ∧ fmLookup fm k = none) := by
  induction data generalizing m with
  | nil => exact Or.inl h
  | cons hd tl ih =>
    obtain ⟨k0, v0⟩ := hd
    unfold mapPass2 at h
    cases hc : fmLookup fm k0 with
    | some t =>
      simp only [hc, Option.isSome_some, if_true] at h
      rcases ih _ h with hm | hd2
      · exact Or.inl hm
      · exact Or.inr ⟨List.mem_cons_of_mem _ hd2.1, hd2.2⟩
    | none =>
      simp only [hc, Option.isSome_none, Bool.false_eq_true, if_false] at h
      cases hm0 : dictGet m k0 with
      | some w =>
        simp only [hm0, Option.isSome_some, if_true] at h
        rcases ih _ h with hm | hd2
        · exact Or.inl hm
        · exact Or.inr ⟨List.mem_cons_of_mem _ hd2.1, hd2.2⟩
      | none =>
        simp only [hm0, Option.isSome_none, Bool.false_eq_true, if_false] at h
        rcases ih _ h with hm | hd2
        · rw [dictKeys_dictSet] at hm
          split at hm
          · exact Or.inl hm
          · rcases List.mem_append.1 hm with h1 | h1
            · exact Or.inl h1
            · have hk : k = k0 := by simpa using h1
              subst hk
              exact Or.inr ⟨List.mem_cons_self _ _, hc⟩
        · exact Or.inr ⟨List.mem_cons_of_mem _ hd2.1, hd2.2⟩

theorem mapPass1_nodup (fm : List (String × String)) (data : PyDict)
    (m : PyDict) (h : (dictKeys m).Nodup) : (dictKeys (mapPass1 fm data m)).Nodup := by
  induction fm generalizing m with
  | nil => exact h
  | cons hd tl ih =>
    obtain ⟨a0, t0⟩ := hd
    cases hg : dictGet data a0 with
    | some v0 =>
      have hstep : mapPass1 ((a0, t0) :: tl) data m = mapPass1 tl data (dictSet m t0 v0) := by
        simp [mapPass1, hg]
      rw [hstep]
      exact ih _ (dictKeys_nodup_dictSet m t0 v0 h)
    | none =>
      have hstep : mapPass1 ((a0, t0) :: tl) data m = mapPass1 tl data m := by
        simp [mapPass1, hg]
      rw [hstep]
      exact ih _ h

theorem mapPass2_nodup (data : PyDict) (fm : List (String × String))
    (m : PyDict) (h : (dictKeys m).Nodup) : (dictKeys (mapPass2 data fm m)).Nodup := by
  induction data generalizing m with
  | nil => exact h
  | cons hd tl ih =>
    obtain ⟨k0, v0⟩ := hd
    unfold mapPass2
    cases hc : fmLookup fm k0 with
    | some t =>
      simp only [hc, Option.isSome_some, if_true]
      exact ih _ h
    | none =>
      simp only [hc, Option.isSome_none, Bool.false_eq_true, if_false]
      cases hm0 : dictGet m k0 with
      | some w =>
        simp only [hm0, Option.isSome_some, if_true]
        exact ih _ h
      | none =>
        simp only [hm0, Option.isSome_none, Bool.false_eq_true, if_false]
        exact ih _ (dictKeys_nodup_dictSet m k0 v0 h)

theorem mapPass2_append (data : PyDict) (fm : List (String × String))
    (m : PyDict)
    (hnd : (dictKeys data).Nodup)
    (hfm : ∀ k ∈ dictKeys data, fmLookup fm k = none)
    (hdisj : ∀ k ∈ dictKeys data, k ∉ dictKeys m) :
    mapPass2 data fm m = m ++ data := by
  induction data generalizing m with
  | nil => simp [mapPass2]
  | cons hd tl ih =>
    obtain ⟨k0, v0⟩ := hd
    simp only [dictKeys, List.map_cons, List.nodup_cons] at hnd
    have hc : fmLookup fm k0 = none := hfm k0 (List.mem_cons_self _ _)
    have hnm : k0 ∉ dictKeys m := hdisj k0 (List.mem_cons_self _ _)
    have hm0 : dictGet m k0 = none := dictGet_eq_none_of_not_mem m k0 hnm
    unfold mapPass2
    simp only [hc, hm0, Option.isSome_none, Bool.false_eq_true, if_false]
    rw [dictSet_eq_append_of_not_mem m k0 v0 hnm]
    have hdisj2 : ∀ k ∈ dictKeys tl, k ∉ dictKeys (m ++ [(k0, v0)]) := by
      intro k hk
      have h1 : k ≠ k0 := fun heq => hnd.1 (heq ▸ hk)
      have h2 : k ∉ dictKeys m := hdisj k (List.mem_cons_of_mem _ hk)
      intro hmem
      rw [show dictKeys (m ++ [(k0, v0)]) = dictKeys m ++ [k0] from by simp [dictKeys]] at hmem
      rcases List.mem_append.1 hmem with h3 | h3
      · exact h2 h3
      · exact h1 (by simpa using h3)
    rw [ih _ hnd.2 (fun k hk => hfm k (List.mem_cons_of_mem _ hk)) hdisj2]
    simp

/-! ## Claim C10 — idempotent field mapping -/

/-- C10: whenever no normalized target name of a field map is itself an
upstream key of that map — true of every sport's map, e.g. the soccer
game field map, whose targets are lowercase and keys uppercase —
applying `_apply_field_mapping` to its own output is a no-op. -/
theorem applyFieldMapping_idempotent (fm : List (String × String))
    (h : ∀ t ∈ fm.map Prod.snd, t ∉ fm.map Prod.fst) (data : PyDict) :
    applyFieldMapping fm (applyFieldMapping fm data) = applyFieldMapping fm data := by
  by_cases hfm : fm = []
  · subst hfm
    simp [applyFieldMapping]
  · have houtdef : applyFieldMapping fm data = mapPass2 data fm (mapPass1 fm data []) := by
      unfold applyFieldMapping
      rw [if_neg hfm]
    set out := applyFieldMapping fm data with hout
    have hkeys : ∀ k ∈ dictKeys out, fmLookup fm k = none := by
      intro k hk
      rw [houtdef] at hk
      rcases mapPass2_keys_sub _ _ _ _ hk with h1 | h2
      · rcases mapPass1_keys_sub _ _ _ _ h1 with h3 | h4
        · simp [dictKeys] at h3
        · exact fmLookup_eq_none_of_not_mem fm k (h k h4)
      · exact h2.2
    have habsent : ∀ a ∈ fm.map Prod.fst, dictGet out a = none := by
      intro a ha
      by_cases hmem : a ∈ dictKeys out
      · have h1 := hkeys a hmem
        have h2 := fmLookup_isSome_of_mem fm a ha
        rw [h1] at h2
        simp at h2
      · exact dictGet_eq_none_of_not_mem out a hmem
    have hnodup : (dictKeys out).Nodup := by
      rw [houtdef]
      exact mapPass2_nodup _ _ _ (mapPass1_nodup _ _ _ (by simp [dictKeys]))
    have hsecond : applyFieldMapping fm out = mapPass2 out fm (mapPass1 fm out []) := by
      unfold applyFieldMapping
      rw [if_neg hfm]
    rw [hsecond, mapPass1_id_of_absent fm out habsent,
      mapPass2_append out fm [] hnodup hkeys (by simp [dictKeys])]
    simp

/-- C10 (witness): the soccer game field map satisfies the no-clash side
condition, so mapping a concrete already-mapped record again is a no-op. -/
theorem applyFieldMapping_idempotent_witness :
    applyFieldMapping soccerGameFieldMap
        (applyFieldMapping soccerGameFieldMap [("GAME_ID", .str "G1"), ("extra", .num 7)]) =
      applyFieldMapping soccerGameFieldMap [("GAME_ID", .str "G1"), ("extra", .num 7)] :=
  applyFieldMapping_idempotent soccerGameFieldMap (by decide)
    [("GAME_ID", .str "G1"), ("extra", .num 7)]

/-! ## Claim C5 — the two-pass merge and silent drops -/

/-- C5 (counterexample): data CAN be dropped silently — with map
`{"A": "x"}` and record `{"A": 1, "x": 2}`, the unmapped key `"x"`
collides with the freshly written normalized key `"x"`, so its value 2
appears nowhere in the output (the claim requires it under its original
name). -/
theorem applyFieldMapping_drop_counterexample :
    applyFieldMapping [("A", "x")] [("A", .num 1), ("x", .num 2)] = [("x", .num 1)] ∧
    dictGet (applyFieldMapping [("A", "x")] [("A", .num 1), ("x", .num 2)]) "x" = some (.num 1) ∧
    (some (JsonValue.num 1) ≠ some (JsonValue.num 2)) := by
  refine ⟨rfl, rfl, ?_⟩
  intro hcontra
  rw [Option.some.injEq] at hcontra
  cases hcontra

/-- C5 (amended): in the absence of name collisions the merge drops
nothing — when the map's keys are unique, its targets are injective on
the present keys, the record's keys are unique, and no unmapped record
key equals a target written in the first pass, every key of the record
contributes its value to the output: under its normalized name when it
is in the map, under its original name otherwise. -/
theorem applyFieldMapping_no_silent_drop (fm : List (String × String))
    (data : PyDict)
    (hfmnd : (fm.map Prod.fst).Nodup)
    (hdnd : (dictKeys data).Nodup)
    (hinj : ∀ p q, p ∈ fm → q ∈ fm → (dictGet data p.1).isSome →
      (dictGet data q.1).isSome → p.2 = q.2 → p.1 = q.1)
    (hnocol : ∀ k, k ∈ dictKeys data → fmLookup fm k = none →
      k ∉ presentTargets fm data)
    (k : String) (v : JsonValue) (hkv : (k, v) ∈ data) :
    (∀ t, fmLookup fm k = some t →
      dictGet (applyFieldMapping fm data) t = some v) ∧
    (fmLookup fm k = none →
      dictGet (applyFieldMapping fm data) k = some v) := by
  constructor
  · intro t ht
    by_cases hfm : fm = []
    · subst hfm
      simp [fmLookup] at ht
    · unfold applyFieldMapping
      rw [if_neg hfm]
      exact mapPass2_preserves data fm t v _
        (mapPass1_get fm data k t v hfmnd hinj (fmLookup_mem fm k t ht)
          (dictGet_of_mem_nodup data k v hdnd hkv) [])
  · intro hnone
    by_cases hfm : fm = []
    · subst hfm
      unfold applyFieldMapping
      simp only [if_pos rfl]
      exact dictGet_of_mem_nodup data k v hdnd hkv
    · unfold applyFieldMapping
      rw [if_neg hfm]
      apply mapPass2_unmapped data fm k v hdnd hkv hnone
      rw [mapPass1_get_of_not_presentTarget fm data k
        (hnocol k (List.mem_map.2 ⟨(k, v), hkv, rfl⟩) hnone) []]
      rfl

/-- C5 (witness): with the collision-free record `{"A": 1, "B": 2}` and
map `{"A": "x"}`, the mapped key lands under `"x"` and the unmapped key
survives under `"B"`. -/
theorem applyFieldMapping_no_silent_drop_witness :
    dictGet (applyFieldMapping [("A", "x")] [("A", .num 1), ("B", .num 2)]) "x"
      = some (.num 1) ∧
    dictGet (applyFieldMapping [("A", "x")] [("A", .num 1), ("B", .num 2)]) "B"
      = some (.num 2) :=
  ⟨(applyFieldMapping_no_silent_drop [("A", "x")] [("A", .num 1), ("B", .num 2)]
      (by simp)
      (by simp [dictKeys])
      (by
        rintro ⟨pa, pt⟩ ⟨qa, qt⟩ hp hq _ _ hpq
        simp only [List.mem_singleton, Prod.mk.injEq] at hp hq
        rw [hp.1, hq.1])
      (by
        intro k hk hlk
        simp only [dictKeys, List.map_cons, List.map_nil, List.mem_cons,
          List.not_mem_nil, or_false] at hk
        rcases hk with rfl | rfl
        · simp [fmLookup] at hlk
        · intro hmem
          simp [presentTargets, dictGet] at hmem)
      "A" (.num 1) (by simp)).1 "x" rfl,
   (applyFieldMapping_no_silent_drop [("A", "x")] [("A", .num 1), ("B", .num 2)]
      (by simp)
      (by simp [dictKeys])
      (by
        rintro ⟨pa, pt⟩ ⟨qa, qt⟩ hp hq _ _ hpq
        simp only [List.mem_singleton, Prod.mk.injEq] at hp hq
        rw [hp.1, hq.1])
      (by
        intro k hk hlk
        simp only [dictKeys, List.map_cons, List.map_nil, List.mem_cons,
          List.not_mem_nil, or_false] at hk
        rcases hk with rfl | rfl
        · simp [fmLookup] at hlk
        · intro hmem
          simp [presentTargets, dictGet] at hmem)
      "B" (.num 2) (by simp)).2 rfl⟩

/-! ## Claim C8 — endpoint resolution precedence and error message -/

theorem mem_insertSorted (x y : String) (l : List String) :
    x ∈ insertSorted y l ↔ x = y ∨ x ∈ l := by
  induction l with
  | nil => simp [insertSorted]
  | cons hd tl ih =>
    unfold insertSorted
    by_cases hlt : y < hd
    · simp [hlt]
    · simp only [hlt, if_false, List.mem_cons, ih]
      tauto

theorem mem_sortedStrings (x : String) (l : List String) (h : x ∈ l) :
    x ∈ sortedStrings l := by
  induction l with
  | nil => simp at h
  | cons hd tl ih =>
    unfold sortedStrings
    rcases List.mem_cons.1 h with rfl | h2
    · exact (mem_insertSorted x x _).2 (Or.inl rfl)
    · exact (mem_insertSorted x hd _).2 (Or.inr (ih h2))

theorem pyStrListReprAux_contains (x : String) (l : List String) (h : x ∈ l) :
    ∃ pre post, pyStrListReprAux l = pre ++ pyQuote x ++ post := by
  induction l with
  | nil => simp at h
  | cons hd tl ih =>
    rcases List.mem_cons.1 h with rfl | h2
    · exact ⟨", ", pyStrListReprAux tl, by simp [pyStrListReprAux, String.append_assoc]⟩
    · obtain ⟨pre, post, hp⟩ := ih h2
      refine ⟨", " ++ pyQuote hd ++ pre, post, ?_⟩
      simp only [pyStrListReprAux, hp, String.append_assoc]

theorem pyStrListRepr_contains (x : String) (l : List String) (h : x ∈ l) :
    ∃ pre post, pyStrListRepr l = pre ++ pyQuote x ++ post := by
  cases l with
  | nil => simp at h
  | cons hd tl =>
    rcases List.mem_cons.1 h with rfl | h2
    · exact ⟨"[", pyStrListReprAux tl ++ "]", by simp [pyStrListRepr, String.append_assoc]⟩
    · obtain ⟨pre, post, hp⟩ := pyStrListReprAux_contains x tl h2
      refine ⟨"[" ++ pyQuote hd ++ pre, post ++ "]", ?_⟩
      simp only [pyStrListRepr, hp, String.append_assoc]

theorem endpointErrorMsg_contains_sport (cfg : SportEndpointConfig) (op : String) :
    strContainsSub (endpointErrorMsg cfg op) cfg.sportName :=
  ⟨"Operation " ++ pyQuote op ++ " not supported for ",
   ". Available: " ++
     pyStrListRepr (sortedStrings (cfg.endpoints.map Prod.fst ++ cfg.useCommon)),
   by simp [endpointErrorMsg, String.append_assoc]⟩

theorem endpointErrorMsg_contains_op (cfg : SportEndpointConfig) (op o : String)
    (h : o ∈ cfg.endpoints.map Prod.fst ++ cfg.useCommon) :
    strContainsSub (endpointErrorMsg cfg op) o := by
  obtain ⟨pre, post, hp⟩ :=
    pyStrListRepr_contains o _ (mem_sortedStrings o _ h)
  refine ⟨"Operation " ++ pyQuote op ++ " not supported for " ++ cfg.sportName ++
    ". Available: " ++ pre ++ squoteChar, squoteChar ++ post, ?_⟩
  simp only [endpointErrorMsg, hp, pyQuote, String.append_assoc]

/-- C8: a sport-specific endpoint always wins — whenever the operation
has an entry in `endpoints`, `get_endpoint` returns that path (even if
the operation is also registered in `use_common`); and when the
operation resolves neither way, the raised error names the sport and
every available operation (sport-specific and common). -/
theorem getEndpoint_precedence_and_error (production : Bool)
    (cfg : SportEndpointConfig) (op : String) :
    (∀ p, fmLookup cfg.endpoints op = some p →
      getEndpoint production cfg op = .ok p) ∧
    (fmLookup cfg.endpoints op = none →
      (op ∉ cfg.useCommon ∨ commonEndpoint production op = none) →
      getEndpoint production cfg op = .error (endpointErrorMsg cfg op) ∧
      strContainsSub (endpointErrorMsg cfg op) cfg.sportName ∧
      ∀ o ∈ cfg.endpoints.map Prod.fst ++ cfg.useCommon,
        strContainsSub (endpointErrorMsg cfg op) o) := by
  constructor
  · intro p hp
    unfold getEndpoint
    rw [hp]
  · intro hnone hfail
    refine ⟨?_, endpointErrorMsg_contains_sport cfg op,
      fun o ho => endpointErrorMsg_contains_op cfg op o ho⟩
    unfold getEndpoint
    rw [hnone]
    rcases hfail with hnc | hce
    · rw [if_neg hnc]
    · by_cases hmem : op ∈ cfg.useCommon
      · rw [if_pos hmem, hce]
      · rw [if_neg hmem]

/-- C8 (witness): with `games` registered both sport-specifically and as
common, the sport-specific path wins; and the unknown operation
`quarter_scores` on the basketball config yields the naming error. -/
theorem getEndpoint_precedence_and_error_witness :
    getEndpoint true
      ⟨"basketball", [("games", "/special/gameList")], ["games"]⟩ "games" =
      .ok "/special/gameList" ∧
    (getEndpoint true (basketballEndpoints true) "quarter_scores" =
      .error (endpointErrorMsg (basketballEndpoints true) "quarter_scores") ∧
     strContainsSub (endpointErrorMsg (basketballEndpoints true) "quarter_scores")
       (basketballEndpoints true).sportName ∧
     ∀ o ∈ ((basketballEndpoints true).endpoints.map Prod.fst ++
         (basketballEndpoints true).useCommon),
       strContainsSub (endpointErrorMsg (basketballEndpoints true) "quarter_scores") o) :=
  ⟨(getEndpoint_precedence_and_error true
      ⟨"basketball", [("games", "/special/gameList")], ["games"]⟩ "games").1
      "/special/gameList" rfl,
   (getEndpoint_precedence_and_error true (basketballEndpoints true)
      "quarter_scores").2 rfl (Or.inl (by decide))⟩

/-! ## Claim C6 — soccer derived fields -/

/-- C6 (counterexample): pass accuracy is rounded to the nearest
integer, not to one decimal — for 1 accurate pass out of 3 the code
produces `"33%"` while the claim's one-decimal formula gives `"33.3%"`. -/
theorem calcPassAccuracy_counterexample :
    calcPassAccuracy [("total_pass", .num 3), ("accurate_pass", .num 1)] = "33%" ∧
    specPassAccuracyOneDecimal [("total_pass", .num 3), ("accurate_pass", .num 1)]
      = "33.3%" ∧
    ("33%" : String) ≠ "33.3%" :=
  ⟨by decide, by decide, by decide⟩

/-- C6 (amended): each standings row of `map_team_rank_list` carries
`win_rate = points / (games_played * 3)` as a one-decimal percentage
(`"0.0%"` when no games were played) and
`goal_diff = goals_for - goals_against`; `_calc_pass_accuracy` computes
`accurate / total * 100` rounded to the nearest INTEGER with the
placeholder `"-"` when the denominator is zero. -/
theorem soccerDerivedFields_formulas :
    (∀ l, mapTeamRankList (.obj [("Data", .obj [("list", .arr l)])]) =
      mapListE mapTeamRankItem l) ∧
    (∀ item : PyDict, ∃ m : PyDict,
      mapTeamRankItem (.obj item) = .ok (.obj m) ∧
      dictGet m "goal_diff" = some (.num
        (safeInt (dictGet (applyFieldMapping teamRankFieldMap item) "goals_for") 0 -
         safeInt (dictGet (applyFieldMapping teamRankFieldMap item) "goals_against") 0)) ∧
      dictGet m "win_rate" = some (.str
        (if 0 < safeInt (dictGet (applyFieldMapping teamRankFieldMap item) "games_played") 0
         then specWinRate
            (safeInt (dictGet (applyFieldMapping teamRankFieldMap item) "points") 0)
            (safeInt (dictGet (applyFieldMapping teamRankFieldMap item) "games_played") 0)
         else "0.0%"))) ∧
    (∀ stats : PyDict,
      (safeInt (dictGet stats "total_pass") 0 = 0 → calcPassAccuracy stats = "-") ∧
      (safeInt (dictGet stats "total_pass") 0 ≠ 0 → calcPassAccuracy stats =
        toString (roundHalfEvenFrac (safeInt (dictGet stats "accurate_pass") 0 * 100)
          (safeInt (dictGet stats "total_pass") 0)) ++ "%")) := by
  refine ⟨fun l => rfl, ?_, ?_⟩
  · intro item
    have hstep : mapTeamRankItem (.obj item) = .ok (.obj (
        if 0 < safeInt (dictGet (dictSet (applyFieldMapping teamRankFieldMap item)
            "goal_diff" (.num
              (safeInt (dictGet (applyFieldMapping teamRankFieldMap item) "goals_for") 0 -
               safeInt (dictGet (applyFieldMapping teamRankFieldMap item) "goals_against") 0)))
            "games_played") 0
        then dictSet (dictSet (applyFieldMapping teamRankFieldMap item)
            "goal_diff" (.num
              (safeInt (dictGet (applyFieldMapping teamRankFieldMap item) "goals_for") 0 -
               safeInt (dictGet (applyFieldMapping teamRankFieldMap item) "goals_against") 0)))
            "win_rate" (.str (fmtTenths (roundHalfEvenFrac
              (safeInt (dictGet (dictSet (applyFieldMapping teamRankFieldMap item)
                "goal_diff" (.num
                  (safeInt (dictGet (applyFieldMapping teamRankFieldMap item) "goals_for") 0 -
                   safeInt (dictGet (applyFieldMapping teamRankFieldMap item) "goals_against") 0)))
                "points") 0 * 100 * 10)
              (safeInt (dictGet (dictSet (applyFieldMapping teamRankFieldMap item)
                "goal_diff" (.num
                  (safeInt (dictGet (applyFieldMapping teamRankFieldMap item) "goals_for") 0 -
                   safeInt (dictGet (applyFieldMapping teamRankFieldMap item) "goals_against") 0)))
                "games_played") 0 * 3)) ++ "%"))
        else dictSet (dictSet (applyFieldMapping teamRankFieldMap item)
            "goal_diff" (.num
              (safeInt (dictGet (applyFieldMapping teamRankFieldMap item) "goals_for") 0 -
               safeInt (dictGet (applyFieldMapping teamRankFieldMap item) "goals_against") 0)))
            "win_rate" (.str "0.0%"))) := rfl
    set mapped := applyFieldMapping teamRankFieldMap item with hmapped
    set gd : JsonValue := .num
      (safeInt (dictGet mapped "goals_for") 0 - safeInt (dictGet mapped "goals_against") 0)
      with hgd
    set m1 := dictSet mapped "goal_diff" gd with hm1
    have hgp : dictGet m1 "games_played" = dictGet mapped "games_played" :=
      dictGet_dictSet_ne mapped "goal_diff" "games_played" gd (by decide)
    have hpts : dictGet m1 "points" = dictGet mapped "points" :=
      dictGet_dictSet_ne mapped "goal_diff" "points" gd (by decide)
    rw [hgp, hpts] at hstep
    by_cases hg : 0 < safeInt (dictGet mapped "games_played") 0
    · rw [if_pos hg] at hstep
      refine ⟨dictSet m1 "win_rate" (.str (specWinRate
          (safeInt (dictGet mapped "points") 0)
          (safeInt (dictGet mapped "games_played") 0))), hstep, ?_, ?_⟩
      · rw [dictGet_dictSet_ne m1 "win_rate" "goal_diff" _ (by decide)]
        exact dictGet_dictSet_self mapped "goal_diff" gd
      · rw [if_pos hg]
        exact dictGet_dictSet_self m1 "win_rate" _
    · rw [if_neg hg] at hstep
      refine ⟨dictSet m1 "win_rate" (.str "0.0%"), hstep, ?_, ?_⟩
      · rw [dictGet_dictSet_ne m1 "win_rate" "goal_diff" _ (by decide)]
        exact dictGet_dictSet_self mapped "goal_diff" gd
      · rw [if_neg hg]
        exact dictGet_dictSet_self m1 "win_rate" _
  · intro stats
    constructor
    · intro h0
      unfold calcPassAccuracy
      rw [if_pos h0]
    · intro hne
      unfold calcPassAccuracy
      rw [if_neg hne]

/-- C6 (witness for the amended theorem): a concrete stats record with a
non-zero denominator yields the integer-rounded percentage. -/
theorem soccerDerivedFields_formulas_witness :
    calcPassAccuracy [("total_pass", .num 4), ("accurate_pass", .num 3)] =
      toString (roundHalfEvenFrac
        (safeInt (dictGet [("total_pass", JsonValue.num 4), ("accurate_pass", .num 3)]
          "accurate_pass") 0 * 100)
        (safeInt (dictGet [("total_pass", JsonValue.num 4), ("accurate_pass", .num 3)]
          "total_pass") 0)) ++ "%" :=
  (soccerDerivedFields_formulas.2.2
    [("total_pass", .num 4), ("accurate_pass", .num 3)]).2 (by decide)
